import Mathlib

/-!
Verification development for the toy-rpc asynchronous RPC framework.

The definitions below are a shallow embedding of the Rust sources:
  * `src/toy-rpc/src/error.rs` — the `Error` enum and `Error::from_err_msg`;
  * `src/toy-rpc-core/src/message.rs` — `ErrorMessage`, `ErrorMessage::from_err`,
    `RequestHeader`, `ResponseHeader`;
  * `src/toy-rpc/src/protocol.rs` — the protocol `Header` enum and `Metadata::get_id`;
  * `src/toy-rpc/src/server/http_actix_web.rs` — the request-dispatch logic of
    `StreamHandler::handle` and the handler-error mapping;
  * `src/src/client.rs` — `Client::_read_response` and `Client::dial_http`;
  * `src/toy-rpc/src/client/reader.rs` — `ClientReader::op`;
  * `src/toy-rpc/src/codec/split.rs` — the frame-based `CodecWrite` half.

Machine integers are modelled as `Nat` (with explicit range side conditions where
they matter), abstract `Box<dyn ...>` payloads as `String` or `Nat` identifiers, and
fallible code as `Except` / `Option`.
-/

namespace ToyRPC

/-- MessageId is u16 in `toy-rpc-core/src/message.rs`; modelled as `Nat`. -/
abbrev MessageId := Nat

/-- Embedding of `Error` from `src/toy-rpc/src/error.rs`. The boxed dynamic
error payloads of `IoError`, `ParseError` and `Internal` are modelled as the
string rendering of the underlying error. -/
inductive Error where
  | IoError (msg : String)
  | ParseError (msg : String)
  | Internal (msg : String)
  | InvalidArgument
  | ServiceNotFound
  | MethodNotFound
  | ExecutionError (s : String)
  | Canceled (id : Option MessageId)
  | Timeout (id : Option MessageId)
  deriving DecidableEq, Repr

/-- Embedding of `ErrorMessage` from `src/toy-rpc-core/src/message.rs`:
the tagged union that is serialized into an error response body. -/
inductive ErrorMessage where
  | InvalidArgument
  | ServiceNotFound
  | MethodNotFound
  | ExecutionError (s : String)
  deriving DecidableEq, Repr

/-- Embedding of `ErrorMessage::from_err` (`toy-rpc-core/src/message.rs`,
lines 113-127): the four wire error kinds map to `Ok` of the matching
`ErrorMessage` variant; `IoError`, `ParseError`, `Internal`, `Canceled` and
`Timeout` are returned unchanged as `Err`. -/
def ErrorMessage.from_err : Error → Except Error ErrorMessage
  | Error.InvalidArgument => Except.ok ErrorMessage.InvalidArgument
  | Error.ServiceNotFound => Except.ok ErrorMessage.ServiceNotFound
  | Error.MethodNotFound => Except.ok ErrorMessage.MethodNotFound
  | Error.ExecutionError s => Except.ok (ErrorMessage.ExecutionError s)
  | Error.IoError m => Except.error (Error.IoError m)
  | Error.ParseError m => Except.error (Error.ParseError m)
  | Error.Internal m => Except.error (Error.Internal m)
  | Error.Canceled i => Except.error (Error.Canceled i)
  | Error.Timeout i => Except.error (Error.Timeout i)

/-- Embedding of `Error::from_err_msg` (`src/toy-rpc/src/error.rs`, lines 52-61):
the client-side decoding of a wire `ErrorMessage` into an `Error`. -/
def Error.from_err_msg : ErrorMessage → Error
  | ErrorMessage.InvalidArgument => Error.InvalidArgument
  | ErrorMessage.ServiceNotFound => Error.ServiceNotFound
  | ErrorMessage.MethodNotFound => Error.MethodNotFound
  | ErrorMessage.ExecutionError s => Error.ExecutionError s

/-- Embedding of the handler-error mapping closure in
`src/toy-rpc/src/server/http_actix_web.rs` lines 141-148: a `ParseError` from
the spawned handler is replaced by `InvalidArgument`; every other error is
passed through unchanged (the `e @ _ => e` arm). -/
def mapHandlerErr : Error → Error
  | Error.ParseError _ => Error.InvalidArgument
  | e => e

/-- Opaque serialized body bytes, modelled as a `Nat` identifier. -/
abbrev Body := Nat

/-- Result of a spawned handler (`HandlerResult` in the Rust source):
serialized success body or an `Error`. -/
abbrev HandlerResult := Except Error Body

/-- Embedding of the `.map_err(...)` application at
`src/toy-rpc/src/server/http_actix_web.rs` line 134: the handler result with
`mapHandlerErr` applied to the error side. -/
def mapHandlerResult : HandlerResult → HandlerResult
  | Except.ok b => Except.ok b
  | Except.error e => Except.error (mapHandlerErr e)

/-- Embedding of the dot search `service_method.rfind` followed by the two slices
`service_method[..pos]` / `service_method[pos + 1..]` in
`src/toy-rpc/src/server/http_actix_web.rs` lines 86-105: split a character
list at the LAST dot, returning the text before it and the text after it,
or `none` when the string contains no dot. -/
def splitAtLastDot : List Char → Option (List Char × List Char)
  | [] => none
  | c :: rest =>
    match splitAtLastDot rest with
    | some (s, m) => some (c :: s, m)
    | none => if c = '.' then some ([], rest) else none

/-- The service registry `AsyncServiceMap = HashMap<&str, ArcAsyncServiceCall>`
modelled as an association list from service name to a handler identifier. -/
abbrev AsyncServiceMap := List (String × Nat)

/-- Outcome of the dispatch part of `StreamHandler::handle`
(`src/toy-rpc/src/server/http_actix_web.rs` lines 82-160): either an error
response is sent back without invoking any handler (the early-return arms), or
the registered service call is invoked with the method name. -/
inductive DispatchOutcome where
  | respond (err : Error)
  | invoke (handler : Nat) (method : String)
  deriving DecidableEq, Repr

/-- Embedding of steps [2] and [3] of `StreamHandler::handle`
(`src/toy-rpc/src/server/http_actix_web.rs` lines 84-129): split
`service_method` at the last dot (responding `MethodNotFound` when there is
none), then look the service part up in the registry (responding
`ServiceNotFound` when absent), and otherwise invoke the stored call with the
method part. -/
def dispatchRequest (services : AsyncServiceMap) (service_method : String) :
    DispatchOutcome :=
  match splitAtLastDot service_method.toList with
  | none => DispatchOutcome.respond Error.MethodNotFound
  | some (svcChars, methodChars) =>
    match services.lookup (String.mk svcChars) with
    | none => DispatchOutcome.respond Error.ServiceNotFound
    | some call => DispatchOutcome.invoke call (String.mk methodChars)

/-- The pending-response map of the client
(`ResponseMap = HashMap<u16, oneshot::Sender<...>>` in `src/src/client.rs`
line 26), modelled as an association list from message id to a sink
identifier. The map invariant of `HashMap` (at most one entry per key) is
carried as a `Nodup` hypothesis where a theorem needs it. -/
abbrev ResponseMap := List (MessageId × Nat)

/-- Result value delivered to a response sink:
`Result<ResponseBody, ResponseBody>` in `src/src/client.rs`. -/
inductive ResponseResult where
  | ok (body : Body)
  | err (body : Body)
  deriving DecidableEq, Repr

/-- Embedding of the `match is_error` at `src/src/client.rs` lines 391-394:
wrap the body as `Ok` or `Err` according to the header flag. -/
def responseResult (is_error : Bool) (body : Body) : ResponseResult :=
  if is_error then ResponseResult.err body else ResponseResult.ok body

/-- First-occurrence lookup in the pending map, the model of
`HashMap::get`-style access keyed by message id. -/
def pmLookup (pending : ResponseMap) (id : MessageId) : Option Nat :=
  match pending with
  | [] => none
  | (k, s) :: rest => if k = id then some s else pmLookup rest id

/-- Embedding of `HashMap::remove`: returns the removed sink (if any) together
with the map with that entry deleted. -/
def pmRemove (pending : ResponseMap) (id : MessageId) : Option Nat × ResponseMap :=
  match pending with
  | [] => (none, [])
  | (k, s) :: rest =>
    if k = id then (some s, rest)
    else
      let r := pmRemove rest id
      (r.1, (k, s) :: r.2)

/-- Result of one `Client::_read_response` step after a header and body were
decoded: the pending map after `remove(&id)` and the sink completed with its
delivered value (if any). -/
structure ReadResponseStep where
  pending : ResponseMap
  completed : Option (Nat × ResponseResult)
  deriving DecidableEq, Repr

/-- Embedding of the post-decode part of `Client::_read_response`
(`src/src/client.rs` lines 391-405): build the `Ok`/`Err` result from the
`is_error` flag, remove the entry for `id` from the pending map, and complete
the removed sink when one was registered; when no entry for `id` exists no
sink is completed and the function still returns without error. -/
def readResponseStep (pending : ResponseMap) (id : MessageId) (is_error : Bool)
    (body : Body) : ReadResponseStep :=
  let res := responseResult is_error body
  let r := pmRemove pending id
  match r.1 with
  | some s => ⟨r.2, some (s, res)⟩
  | none => ⟨r.2, none⟩

/-- Embedding of `std::time::Duration` as carried in a `Request` header:
whole seconds (u64) and a sub-second nanosecond part (u32). -/
structure RDuration where
  secs : Nat
  nanos : Nat
  deriving DecidableEq, Repr

/-- Embedding of the protocol `Header` enum from `src/toy-rpc/src/protocol.rs`
lines 8-115, with all ten variants in declaration order. -/
inductive Header where
  | Request (id : MessageId) (service_method : String) (timeout : RDuration)
  | Response (id : MessageId) (is_ok : Bool)
  | Cancel (id : MessageId)
  | Publish (id : MessageId) (topic : String)
  | Subscribe (id : MessageId) (topic : String)
  | Unsubscribe (id : MessageId) (topic : String)
  | Ack (id : MessageId)
  | Produce (id : MessageId) (topic : String) (tickets : Nat)
  | Consume (id : MessageId) (topic : String)
  | Ext (id : MessageId) (content : String) (marker : Nat)
  deriving DecidableEq, Repr

/-- Embedding of `Metadata::get_id` for `Header`
(`src/toy-rpc/src/protocol.rs` lines 117-133). -/
def Header.get_id : Header → MessageId
  | Header.Request id _ _ => id
  | Header.Response id _ => id
  | Header.Cancel id => id
  | Header.Publish id _ => id
  | Header.Subscribe id _ => id
  | Header.Unsubscribe id _ => id
  | Header.Ack id => id
  | Header.Produce id _ _ => id
  | Header.Consume id _ => id
  | Header.Ext id _ _ => id

/-- The two `ClientBrokerItem` variants constructed by `ClientReader::op`
(`src/toy-rpc/src/client/reader.rs`): a correlated response event and the
`Stop` sentinel. The broker enum itself lives in the (not vendored) client
broker module; only the variants the reader emits are modelled. -/
inductive ClientBrokerItem where
  | response (id : MessageId) (res : ResponseResult)
  | stop
  deriving DecidableEq, Repr

/-- How one `ClientReader::op` step ends: continue the read loop with an `Ok`
or `Err` step result (`brw::Running::Continue`), stop the loop
(`brw::Running::Stop`), or hit the `unimplemented!()` panic. -/
inductive ReaderOutcome where
  | continueOk
  | continueErr (e : Error)
  | stop
  | panicked
  deriving DecidableEq, Repr

/-- Result of one `ClientReader::op` step: the broker items sent over the sink
during the step, in order, and how the step ended. -/
structure ReaderStep where
  sent : List ClientBrokerItem
  outcome : ReaderOutcome
  deriving DecidableEq, Repr

/-- Embedding of `ClientReader::op` (`src/toy-rpc/src/client/reader.rs` lines
22-63). The header read yields `none` at end of stream, or a decode result;
when the header decodes, the body read likewise yields `none` at end of
stream or a decode result (the body deserializer is an abstract `Body`).
Mirrors the source: header EOF sends the `Stop` sentinel and stops; a header
decode error continues with the error; body EOF stops (without sending
anything); a body decode error continues with the error; a decoded `Response`
header sends the correlated response item; every other decoded header variant
falls into the `unimplemented!()` arm. Broker sends are modelled as
succeeding. -/
def clientReaderOp (headerEv : Option (Except Error Header))
    (bodyEv : Option (Except Error Body)) : ReaderStep :=
  match headerEv with
  | none => ⟨[ClientBrokerItem.stop], ReaderOutcome.stop⟩
  | some (Except.error e) => ⟨[], ReaderOutcome.continueErr e⟩
  | some (Except.ok h) =>
    match bodyEv with
    | none => ⟨[], ReaderOutcome.stop⟩
    | some (Except.error e) => ⟨[], ReaderOutcome.continueErr e⟩
    | some (Except.ok b) =>
      match h with
      | Header.Response id is_ok =>
        ⟨[ClientBrokerItem.response id (responseResult (!is_ok) b)],
          ReaderOutcome.continueOk⟩
      | _ => ⟨[], ReaderOutcome.panicked⟩

/-- Modelled from the spec: the pluggable symmetric codec (the `Marshal` and
`Unmarshal` impls of `DefaultCodec` are not under `src/`). Serialization of a
`Nat` field of byte width `w` in the serde data model, as a little-endian list
of `w` base-256 digits. -/
def encNat : Nat → Nat → List Nat
  | 0, _ => []
  | w + 1, n => n % 256 :: encNat w (n / 256)

/-- Modelled from the spec: the matching decoder for `encNat`, consuming `w`
symbols and returning the decoded value with the remaining input. -/
def decNat : Nat → List Nat → Option (Nat × List Nat)
  | 0, rest => some (0, rest)
  | _ + 1, [] => none
  | w + 1, b :: rest =>
    match decNat w rest with
    | some (m, r) => some (b + 256 * m, r)
    | none => none

/-- Modelled from the spec: serialization of a string in the serde data model,
as a u32 length followed by one symbol per character. -/
def encStr (s : String) : List Nat :=
  encNat 4 s.length ++ s.toList.map Char.toNat

/-- Modelled from the spec: decode `n` characters from the input. -/
def decChars : Nat → List Nat → Option (List Char × List Nat)
  | 0, rest => some ([], rest)
  | _ + 1, [] => none
  | n + 1, b :: rest =>
    match decChars n rest with
    | some (cs, r) => some (Char.ofNat b :: cs, r)
    | none => none

/-- Modelled from the spec: the matching decoder for `encStr`. -/
def decStr (bs : List Nat) : Option (String × List Nat) :=
  (decNat 4 bs).bind fun p =>
    (decChars p.1 p.2).map fun q => (String.mk q.1, q.2)

/-- Modelled from the spec: serialization of a bool as one symbol. -/
def encBool (b : Bool) : List Nat := [if b then 1 else 0]

/-- Modelled from the spec: the matching decoder for `encBool`. -/
def decBool : List Nat → Option (Bool × List Nat)
  | 0 :: rest => some (false, rest)
  | 1 :: rest => some (true, rest)
  | _ => none

/-- Modelled from the spec: `marshal` of a protocol `Header` value — the serde
data model of the `Header` enum of `src/toy-rpc/src/protocol.rs` rendered by
the configured codec as a tagged encoding: the variant index in declaration
order (0 = Request .. 9 = Ext) followed by the fields in order. `Duration` is
seconds (u64) then subsecond nanoseconds (u32). -/
def marshalHeader : Header → List Nat
  | Header.Request id sm t =>
      0 :: (encNat 2 id ++ encStr sm ++ encNat 8 t.secs ++ encNat 4 t.nanos)
  | Header.Response id is_ok => 1 :: (encNat 2 id ++ encBool is_ok)
  | Header.Cancel id => 2 :: encNat 2 id
  | Header.Publish id topic => 3 :: (encNat 2 id ++ encStr topic)
  | Header.Subscribe id topic => 4 :: (encNat 2 id ++ encStr topic)
  | Header.Unsubscribe id topic => 5 :: (encNat 2 id ++ encStr topic)
  | Header.Ack id => 6 :: encNat 2 id
  | Header.Produce id topic tickets =>
      7 :: (encNat 2 id ++ encStr topic ++ encNat 4 tickets)
  | Header.Consume id topic => 8 :: (encNat 2 id ++ encStr topic)
  | Header.Ext id content marker =>
      9 :: (encNat 2 id ++ encStr content ++ encNat 4 marker)

/-- Modelled from the spec: `unmarshal` of a protocol `Header`, the decoder
matching `marshalHeader`, returning the header with the remaining input. -/
def decHeader (bs : List Nat) : Option (Header × List Nat) :=
  match bs with
  | 0 :: rest =>
    (decNat 2 rest).bind fun p1 =>
    (decStr p1.2).bind fun p2 =>
    (decNat 8 p2.2).bind fun p3 =>
    (decNat 4 p3.2).map fun p4 =>
      (Header.Request p1.1 p2.1 ⟨p3.1, p4.1⟩, p4.2)
  | 1 :: rest =>
    (decNat 2 rest).bind fun p1 =>
    (decBool p1.2).map fun p2 => (Header.Response p1.1 p2.1, p2.2)
  | 2 :: rest => (decNat 2 rest).map fun p1 => (Header.Cancel p1.1, p1.2)
  | 3 :: rest =>
    (decNat 2 rest).bind fun p1 =>
    (decStr p1.2).map fun p2 => (Header.Publish p1.1 p2.1, p2.2)
  | 4 :: rest =>
    (decNat 2 rest).bind fun p1 =>
    (decStr p1.2).map fun p2 => (Header.Subscribe p1.1 p2.1, p2.2)
  | 5 :: rest =>
    (decNat 2 rest).bind fun p1 =>
    (decStr p1.2).map fun p2 => (Header.Unsubscribe p1.1 p2.1, p2.2)
  | 6 :: rest => (decNat 2 rest).map fun p1 => (Header.Ack p1.1, p1.2)
  | 7 :: rest =>
    (decNat 2 rest).bind fun p1 =>
    (decStr p1.2).bind fun p2 =>
    (decNat 4 p2.2).map fun p3 => (Header.Produce p1.1 p2.1 p3.1, p3.2)
  | 8 :: rest =>
    (decNat 2 rest).bind fun p1 =>
    (decStr p1.2).map fun p2 => (Header.Consume p1.1 p2.1, p2.2)
  | 9 :: rest =>
    (decNat 2 rest).bind fun p1 =>
    (decStr p1.2).bind fun p2 =>
    (decNat 4 p2.2).map fun p3 => (Header.Ext p1.1 p2.1 p3.1, p3.2)
  | _ => none

/-- Range invariants of the Rust `Header` type carried by the `Nat` embedding:
ids are u16, `tickets` and `marker` are u32, `Duration` is u64 seconds plus
u32 nanoseconds, and string lengths fit the u32 length field. -/
def Header.wf : Header → Prop
  | Header.Request id sm t =>
      id < 256 ^ 2 ∧ sm.length < 256 ^ 4 ∧ t.secs < 256 ^ 8 ∧ t.nanos < 256 ^ 4
  | Header.Response id _ => id < 256 ^ 2
  | Header.Cancel id => id < 256 ^ 2
  | Header.Publish id topic => id < 256 ^ 2 ∧ topic.length < 256 ^ 4
  | Header.Subscribe id topic => id < 256 ^ 2 ∧ topic.length < 256 ^ 4
  | Header.Unsubscribe id topic => id < 256 ^ 2 ∧ topic.length < 256 ^ 4
  | Header.Ack id => id < 256 ^ 2
  | Header.Produce id topic tickets =>
      id < 256 ^ 2 ∧ topic.length < 256 ^ 4 ∧ tickets < 256 ^ 4
  | Header.Consume id topic => id < 256 ^ 2 ∧ topic.length < 256 ^ 4
  | Header.Ext id content marker =>
      id < 256 ^ 2 ∧ content.length < 256 ^ 4 ∧ marker < 256 ^ 4

/-- Modelled from the spec: the full unmarshal entry point — decode one
header and require the input to be exactly consumed. -/
def unmarshalHeader (bs : List Nat) : Except Error Header :=
  match decHeader bs with
  | some (h, []) => Except.ok h
  | _ => Except.error (Error.ParseError "invalid header bytes")

/-- Modelled from the spec: the transport `Frame` record (the frame module is
not under `src/`); section 3 of the spec gives
`Frame = (id, seq, type in Header|Data|Trailer, payload)`. -/
inductive PayloadType where
  | header
  | data
  | trailer
  deriving DecidableEq, Repr

/-- Modelled from the spec: the transport frame carrying one of header or body
for one logical message. -/
structure Frame where
  id : MessageId
  seq : Nat
  payload_type : PayloadType
  payload : List Nat
  deriving DecidableEq, Repr

/-- The `Frame::new(message_id, seq, payload_type, payload)` constructor as
called from `src/toy-rpc/src/codec/split.rs`. -/
def Frame.new (id : MessageId) (seq : Nat) (payload_type : PayloadType)
    (payload : List Nat) : Frame :=
  ⟨id, seq, payload_type, payload⟩

/-- Embedding of `CodecWrite::write_header` for the frame-based write half
(`src/toy-rpc/src/codec/split.rs` lines 136-147, identically
`src/toy-rpc-core/src/codec/split/mod.rs` lines 129-140): marshal the header
and write exactly one frame `Frame::new(header.get_id(), 0, PayloadType::Header, buf)`.
The frame list returned is the sequence of frames emitted by the call. -/
def write_header (h : Header) : List Frame :=
  [Frame.new h.get_id 0 PayloadType.header (marshalHeader h)]

/-- Embedding of `CodecWrite::write_body` (`src/toy-rpc/src/codec/split.rs`
lines 149-158): marshal the body and write exactly one frame
`Frame::new(id, 1, PayloadType::Data, buf)`. The body type is erased in the
source, so its marshalled bytes are taken as the argument. -/
def write_body (id : MessageId) (bodyBuf : List Nat) : List Frame :=
  [Frame.new id 1 PayloadType.data bodyBuf]

/-- One logical message as the writer emits it: the `write_header` frames
followed by the `write_body` frames for the same message id. -/
def writeMessageFrames (h : Header) (bodyBuf : List Nat) : List Frame :=
  write_header h ++ write_body h.get_id bodyBuf

/-- Abstract model of a parsed `url::Url` as used by `Client::dial_http`:
scheme, host, and serialized path (for http URLs the path always begins with
a slash). -/
structure UrlModel where
  scheme : String
  host : String
  path : String
  deriving DecidableEq, Repr

/-- `DEFAULT_RPC_PATH` from the server module. -/
def DEFAULT_RPC_PATH : String := "_rpc"

/-- The path-merge step of RFC 3986 section 5.3 as performed by
`url::Url::join` (third-party `url` crate) for a relative reference that
contains no slash: everything after the last slash of the base path is
dropped before the reference is appended. -/
def stripLastSegment (p : String) : String :=
  String.mk ((p.toList.reverse.dropWhile (fun c => c != '/')).reverse)

/-- Embedding of `url::Url::join` for a single-segment relative reference
such as `"_rpc"`: merge the reference onto the base path. -/
def urlJoinRel (base : UrlModel) (reference : String) : UrlModel :=
  { base with path := stripLastSegment base.path ++ reference }

/-- Embedding of `Client::dial_http` (`src/src/client.rs` lines 166-172) up
to the websocket connect: `Url::parse(addr)?.join(DEFAULT_RPC_PATH)?` then
`set_scheme("ws")`. -/
def dial_http_url (base : UrlModel) : UrlModel :=
  { urlJoinRel base DEFAULT_RPC_PATH with scheme := "ws" }

theorem splitAtLastDot_eq_none_iff (cs : List Char) :
    splitAtLastDot cs = none ↔ '.' ∉ cs := by
  induction cs with
  | nil => simp [splitAtLastDot]
  | cons c rest ih =>
    constructor
    · intro h hm
      unfold splitAtLastDot at h
      rcases hsplit : splitAtLastDot rest with _ | p
      · rw [hsplit] at h
        simp only at h
        rcases List.mem_cons.mp hm with hc | hmem
        · rw [← hc] at h
          simp at h
        · exact (ih.mp hsplit) hmem
      · rw [hsplit] at h
        simp at h
    · intro hm
      have hc : ¬ c = '.' := fun h => hm (h ▸ List.mem_cons_self c rest)
      have hrest : splitAtLastDot rest = none :=
        ih.mpr (fun h => hm (List.mem_cons_of_mem c h))
      unfold splitAtLastDot
      rw [hrest]
      simp [hc, fun h : c = '.' => hc h]

theorem splitAtLastDot_append (svc mth : List Char) (hm : '.' ∉ mth) :
    splitAtLastDot (svc ++ '.' :: mth) = some (svc, mth) := by
  induction svc with
  | nil =>
    simp [List.nil_append, splitAtLastDot,
      (splitAtLastDot_eq_none_iff mth).mpr hm]
  | cons c rest ih =>
    simp [List.cons_append, splitAtLastDot, List.append_eq, ih]

theorem pmRemove_fst_eq_pmLookup (p : ResponseMap) (id : MessageId) :
    (pmRemove p id).1 = pmLookup p id := by
  induction p with
  | nil => rfl
  | cons kv rest ih =>
    obtain ⟨k, s⟩ := kv
    by_cases h : k = id <;> simp [pmRemove, pmLookup, h, ih]

theorem pmRemove_snd_of_lookup_none (p : ResponseMap) (id : MessageId)
    (h : pmLookup p id = none) : (pmRemove p id).2 = p := by
  induction p with
  | nil => rfl
  | cons kv rest ih =>
    obtain ⟨k, s⟩ := kv
    by_cases hk : k = id
    · simp [pmLookup, hk] at h
    · simp only [pmLookup, if_neg hk] at h
      simp [pmRemove, hk, ih h]

theorem pmLookup_pmRemove_ne (p : ResponseMap) (i1 i2 : MessageId) (h : i1 ≠ i2) :
    pmLookup (pmRemove p i1).2 i2 = pmLookup p i2 := by
  induction p with
  | nil => rfl
  | cons kv rest ih =>
    obtain ⟨k, s⟩ := kv
    by_cases hk : k = i1
    · have hk2 : ¬ k = i2 := fun hq => h (hk ▸ hq ▸ rfl)
      simp [pmRemove, pmLookup, hk, hk2, h]
    · by_cases hk2 : k = i2 <;> simp [pmRemove, pmLookup, hk, hk2, h, Ne.symm h, ih]

theorem pmLookup_eq_none_of_not_mem (p : ResponseMap) (id : MessageId)
    (h : id ∉ p.map Prod.fst) : pmLookup p id = none := by
  induction p with
  | nil => rfl
  | cons kv rest ih =>
    obtain ⟨k, s⟩ := kv
    simp only [List.map_cons, List.mem_cons] at h
    push_neg at h
    have hk : ¬ k = id := fun hq => h.1 hq.symm
    simp [pmLookup, hk, ih h.2]

theorem pmLookup_pmRemove_self (p : ResponseMap) (id : MessageId)
    (hnd : (p.map Prod.fst).Nodup) : pmLookup (pmRemove p id).2 id = none := by
  induction p with
  | nil => rfl
  | cons kv rest ih =>
    obtain ⟨k, s⟩ := kv
    simp only [List.map_cons, List.nodup_cons] at hnd
    by_cases hk : k = id
    · subst hk
      simp only [pmRemove, if_pos rfl]
      exact pmLookup_eq_none_of_not_mem rest k hnd.1
    · simp only [pmRemove, if_neg hk]
      simp only [pmLookup, if_neg hk]
      exact ih hnd.2

theorem readResponseStep_pending (p : ResponseMap) (id : MessageId)
    (e : Bool) (b : Body) :
    (readResponseStep p id e b).pending = (pmRemove p id).2 := by
  unfold readResponseStep
  cases h : (pmRemove p id).1 <;> simp [h]

theorem readResponseStep_completed (p : ResponseMap) (id : MessageId)
    (e : Bool) (b : Body) :
    (readResponseStep p id e b).completed
      = (pmLookup p id).map (fun s => (s, responseResult e b)) := by
  unfold readResponseStep
  rw [← pmRemove_fst_eq_pmLookup]
  cases h : (pmRemove p id).1 <;> simp [h]

/-- C2: on receiving a response header carrying `id`, the client removes from
the pending map and completes exactly the sink registered under that id
(delivering the `Ok`/`Err` body according to `is_error`); if no entry for that
id exists, no sink is completed and the pending map is unchanged (the response
is dropped); and for two distinct outstanding ids the responses complete the
correct sinks regardless of arrival order. -/
theorem c2_response_correlation (p : ResponseMap) (id : MessageId)
    (is_error : Bool) (b : Body) :
    (pmLookup p id = none →
        (readResponseStep p id is_error b).completed = none
        ∧ (readResponseStep p id is_error b).pending = p)
    ∧ (∀ s, pmLookup p id = some s →
        (readResponseStep p id is_error b).completed
            = some (s, responseResult is_error b)
        ∧ ((p.map Prod.fst).Nodup →
            pmLookup (readResponseStep p id is_error b).pending id = none))
    ∧ (∀ id2 r2 b2 s s2, id ≠ id2 →
        pmLookup p id = some s → pmLookup p id2 = some s2 →
        (readResponseStep (readResponseStep p id is_error b).pending
            id2 r2 b2).completed = some (s2, responseResult r2 b2)
        ∧ (readResponseStep (readResponseStep p id2 r2 b2).pending
            id is_error b).completed = some (s, responseResult is_error b)) := by
  refine ⟨?_, ?_, ?_⟩
  · intro h
    constructor
    · rw [readResponseStep_completed, h]
      rfl
    · rw [readResponseStep_pending, pmRemove_snd_of_lookup_none p id h]
  · intro s h
    constructor
    · rw [readResponseStep_completed, h]
      rfl
    · intro hnd
      rw [readResponseStep_pending]
      exact pmLookup_pmRemove_self p id hnd
  · intro id2 r2 b2 s s2 hne h1 h2
    constructor
    · rw [readResponseStep_completed, readResponseStep_pending,
        pmLookup_pmRemove_ne p id id2 hne, h2]
      rfl
    · rw [readResponseStep_completed, readResponseStep_pending,
        pmLookup_pmRemove_ne p id2 id (Ne.symm hne), h1]
      rfl

/-- Witness for C2 at concrete inputs: with sinks 10 and 20 registered under
ids 1 and 2, the response for id 2 arriving after the one for id 1 completes
sink 20, and on the empty map the step drops the response and leaves the map
unchanged. -/
theorem c2_response_correlation_witness :
    (readResponseStep (readResponseStep [(1, 10), (2, 20)] 1 false 5).pending
        2 true 7).completed = some (20, responseResult true 7)
    ∧ (readResponseStep [] 1 false 5).completed = none
    ∧ (readResponseStep [] 1 false 5).pending = [] :=
  ⟨((c2_response_correlation [(1, 10), (2, 20)] 1 false 5).2.2
      2 true 7 10 20 (by decide) (by decide) (by decide)).1,
    ((c2_response_correlation [] 1 false 5).1 (by decide)).1,
    ((c2_response_correlation [] 1 false 5).1 (by decide)).2⟩

/-- C6 counterexample: the claim says every decoded header variant reaches a
non-panicking branch of the client reader, but a decoded `Publish` header with
a decoded body falls into the `unimplemented!()` arm and panics. -/
theorem c6_counterexample_publish_panics :
    (clientReaderOp (some (Except.ok (Header.Publish 1 "topic")))
        (some (Except.ok 0))).outcome = ReaderOutcome.panicked := rfl

/-- C6 (amended): for every successfully decoded inbound header+body pair, the
client reader handles `Response` headers without panicking, and every other
variant — `Request`, `Cancel`, `Publish`, `Subscribe`, `Unsubscribe`, `Ack`,
`Produce`, `Consume`, `Ext` — reaches the `unimplemented!()` arm and panics. -/
theorem c6_only_response_handled (h : Header) (b : Body) :
    (∀ id is_ok, h = Header.Response id is_ok →
        (clientReaderOp (some (Except.ok h)) (some (Except.ok b))).outcome
          = ReaderOutcome.continueOk)
    ∧ ((∀ id is_ok, h ≠ Header.Response id is_ok) →
        (clientReaderOp (some (Except.ok h)) (some (Except.ok b))).outcome
          = ReaderOutcome.panicked) := by
  constructor
  · intro id is_ok he
    subst he
    rfl
  · intro hne
    cases h with
    | Response id is_ok => exact absurd rfl (hne id is_ok)
    | _ => rfl

/-- Witness for C6 (amended) at concrete inputs: a `Response` header is
handled, a `Subscribe` header panics. -/
theorem c6_only_response_handled_witness :
    (clientReaderOp (some (Except.ok (Header.Response 2 true)))
        (some (Except.ok 0))).outcome = ReaderOutcome.continueOk
    ∧ (clientReaderOp (some (Except.ok (Header.Subscribe 3 "t")))
        (some (Except.ok 0))).outcome = ReaderOutcome.panicked :=
  ⟨(c6_only_response_handled (Header.Response 2 true) 0).1 2 true rfl,
    (c6_only_response_handled (Header.Subscribe 3 "t") 0).2
      (fun id is_ok hq => by cases hq)⟩

/-- C7 counterexample: the claim says end-of-stream at the body read also makes
the reader send the `Stop` sentinel before returning, but on body EOF after a
decoded `Response` header the step stops having sent nothing at all. -/
theorem c7_counterexample_body_eof_no_sentinel :
    (clientReaderOp (some (Except.ok (Header.Response 1 true))) none).sent = []
    ∧ (clientReaderOp (some (Except.ok (Header.Response 1 true))) none).outcome
        = ReaderOutcome.stop := ⟨rfl, rfl⟩

/-- C7 (amended): end-of-stream at the header read makes the reader send the
`Stop` sentinel and stop; end-of-stream at the body read stops the reader
without sending the sentinel; a decode error of the header ends the step with
that error as its `Continue` result, sending nothing to the broker; a decode
error of the body likewise ends the step with the error and continues, without
failing the id from the preceding header locally. -/
theorem c7_reader_eof_and_decode_errors (bodyEv : Option (Except Error Body)) :
    clientReaderOp none bodyEv
        = ⟨[ClientBrokerItem.stop], ReaderOutcome.stop⟩
    ∧ (∀ e, clientReaderOp (some (Except.error e)) bodyEv
        = ⟨[], ReaderOutcome.continueErr e⟩)
    ∧ (∀ h, clientReaderOp (some (Except.ok h)) none
        = ⟨[], ReaderOutcome.stop⟩)
    ∧ (∀ h e, clientReaderOp (some (Except.ok h)) (some (Except.error e))
        = ⟨[], ReaderOutcome.continueErr e⟩) := by
  refine ⟨rfl, fun e => rfl, fun h => ?_, fun h e => ?_⟩ <;> cases h <;> rfl

/-- Witness for C7 (amended) at concrete inputs. -/
theorem c7_reader_eof_and_decode_errors_witness :
    clientReaderOp (some (Except.error (Error.ParseError "bad header"))) none
        = ⟨[], ReaderOutcome.continueErr (Error.ParseError "bad header")⟩
    ∧ clientReaderOp (some (Except.ok (Header.Ack 4)))
        (some (Except.error (Error.ParseError "bad body")))
        = ⟨[], ReaderOutcome.continueErr (Error.ParseError "bad body")⟩ :=
  ⟨(c7_reader_eof_and_decode_errors none).2.1 (Error.ParseError "bad header"),
    (c7_reader_eof_and_decode_errors
        (some (Except.error (Error.ParseError "bad body")))).2.2.2
      (Header.Ack 4) (Error.ParseError "bad body")⟩

/-- C1: for every inbound request, the server splits `service_method` at the
last dot: with no dot it responds `MethodNotFound` without invoking any
handler (a `respond` outcome, never an `invoke` one); when the service part
names no registered service it responds `ServiceNotFound`; when the exact
service name is registered the stored handler is invoked. The registry lookup
is by exact string equality, hence case-sensitive, as the two concrete
conjuncts at the end exhibit. -/
theorem c1_dispatch_split_and_lookup (services : AsyncServiceMap) (sm : String) :
    ('.' ∉ sm.toList →
        dispatchRequest services sm = DispatchOutcome.respond Error.MethodNotFound)
    ∧ (∀ svc mth : List Char, sm.toList = svc ++ '.' :: mth → '.' ∉ mth →
        (services.lookup (String.mk svc) = none →
          dispatchRequest services sm = DispatchOutcome.respond Error.ServiceNotFound)
        ∧ (∀ call, services.lookup (String.mk svc) = some call →
          dispatchRequest services sm = DispatchOutcome.invoke call (String.mk mth)))
    ∧ dispatchRequest [("Arith", 0)] "arith.add"
        = DispatchOutcome.respond Error.ServiceNotFound
    ∧ dispatchRequest [("Arith", 0)] "Arith.add" = DispatchOutcome.invoke 0 "add" := by
  refine ⟨?_, ?_, by decide, by decide⟩
  · intro h
    unfold dispatchRequest
    rw [(splitAtLastDot_eq_none_iff sm.toList).mpr h]
  · intro svc mth heq hm
    constructor
    · intro hlook
      unfold dispatchRequest
      rw [heq, splitAtLastDot_append svc mth hm]
      simp only
      rw [hlook]
    · intro call hlook
      unfold dispatchRequest
      rw [heq, splitAtLastDot_append svc mth hm]
      simp only
      rw [hlook]

/-- Witness for C1 at concrete inputs: a request with no dot responds
`MethodNotFound`, and an unregistered service responds `ServiceNotFound`. -/
theorem c1_dispatch_split_and_lookup_witness :
    dispatchRequest [("Arith", 0)] "noseparator"
        = DispatchOutcome.respond Error.MethodNotFound
    ∧ dispatchRequest [("Arith", 0)] "NoSuch.foo"
        = DispatchOutcome.respond Error.ServiceNotFound :=
  ⟨(c1_dispatch_split_and_lookup [("Arith", 0)] "noseparator").1 (by decide),
    ((c1_dispatch_split_and_lookup [("Arith", 0)] "NoSuch.foo").2.1
      "NoSuch".toList "foo".toList (by decide) (by decide)).1 (by decide)⟩

/-- C4: `ErrorMessage::from_err` maps exactly the four wire error kinds to `Ok`
of the corresponding `ErrorMessage` variant, and returns `Err` (carrying the
input error unchanged) for every `IoError`, `ParseError`, `Internal`,
`Canceled` and `Timeout` input, so `Canceled` and `Timeout` are never turned
into a serializable `ErrorMessage`. -/
theorem c4_from_err_partition :
    ErrorMessage.from_err Error.InvalidArgument = Except.ok ErrorMessage.InvalidArgument
    ∧ ErrorMessage.from_err Error.ServiceNotFound = Except.ok ErrorMessage.ServiceNotFound
    ∧ ErrorMessage.from_err Error.MethodNotFound = Except.ok ErrorMessage.MethodNotFound
    ∧ (∀ s : String,
        ErrorMessage.from_err (Error.ExecutionError s)
          = Except.ok (ErrorMessage.ExecutionError s))
    ∧ (∀ m : String,
        ErrorMessage.from_err (Error.IoError m) = Except.error (Error.IoError m))
    ∧ (∀ m : String,
        ErrorMessage.from_err (Error.ParseError m) = Except.error (Error.ParseError m))
    ∧ (∀ m : String,
        ErrorMessage.from_err (Error.Internal m) = Except.error (Error.Internal m))
    ∧ (∀ i : Option MessageId,
        ErrorMessage.from_err (Error.Canceled i) = Except.error (Error.Canceled i))
    ∧ (∀ i : Option MessageId,
        ErrorMessage.from_err (Error.Timeout i) = Except.error (Error.Timeout i)) := by
  refine ⟨rfl, rfl, rfl, ?_, ?_, ?_, ?_, ?_, ?_⟩ <;> intro x <;> rfl

/-- C10: the server-side encoding and client-side decoding of wire errors are
mutually inverse: `ErrorMessage.from_err (Error.from_err_msg m)` returns `Ok m`
for every `ErrorMessage` value `m`. -/
theorem c10_from_err_msg_roundtrip (m : ErrorMessage) :
    ErrorMessage.from_err (Error.from_err_msg m) = Except.ok m := by
  cases m <;> rfl

/-- C5: when a spawned handler invocation resolves to `Err(ParseError)`, the
server replaces the error with `InvalidArgument` before composing the error
response; every other handler error value, and every success value, is passed
through unchanged. -/
theorem c5_parse_error_becomes_invalid_argument :
    (∀ m : String,
        mapHandlerResult (Except.error (Error.ParseError m))
          = Except.error Error.InvalidArgument)
    ∧ (∀ e : Error, (∀ m : String, e ≠ Error.ParseError m) →
        mapHandlerResult (Except.error e) = Except.error e)
    ∧ (∀ b : Body, mapHandlerResult (Except.ok b) = Except.ok b) := by
  refine ⟨fun m => rfl, ?_, fun b => rfl⟩
  intro e he
  cases e with
  | ParseError m => exact absurd rfl (he m)
  | _ => rfl

/-- Witness for C5 at concrete inputs: the hypothesis of the second conjunct is
discharged at `Error.Timeout (some 3)`. -/
theorem c5_parse_error_becomes_invalid_argument_witness :
    mapHandlerResult (Except.error (Error.ParseError "bad")) = Except.error Error.InvalidArgument
    ∧ mapHandlerResult (Except.error (Error.Timeout (some 3)))
        = Except.error (Error.Timeout (some 3)) :=
  ⟨c5_parse_error_becomes_invalid_argument.1 "bad",
    c5_parse_error_becomes_invalid_argument.2.1 (Error.Timeout (some 3))
      (fun m h => by cases h)⟩

theorem decNat_encNat (w n : Nat) (rest : List Nat) (h : n < 256 ^ w) :
    decNat w (encNat w n ++ rest) = some (n, rest) := by
  induction w generalizing n with
  | zero =>
    have hn : n = 0 := by simpa using h
    simp [encNat, decNat, hn]
  | succ w ih =>
    have hlt : n / 256 < 256 ^ w := by
      apply Nat.div_lt_of_lt_mul
      calc n < 256 ^ (w + 1) := h
        _ = 256 * 256 ^ w := by ring
    simp only [encNat, List.cons_append, List.append_eq, decNat, ih (n / 256) hlt]
    rw [Nat.mod_add_div n 256]

theorem decChars_map_toNat (cs : List Char) (rest : List Nat) :
    decChars cs.length (cs.map Char.toNat ++ rest) = some (cs, rest) := by
  induction cs with
  | nil => rfl
  | cons c t ih =>
    simp only [List.length_cons, List.map_cons, List.cons_append, List.append_eq,
      decChars, ih, Char.ofNat_toNat]

theorem string_mk_toList (s : String) : String.mk s.toList = s := by
  cases s
  rfl

theorem decStr_encStr (s : String) (rest : List Nat) (h : s.length < 256 ^ 4) :
    decStr (encStr s ++ rest) = some (s, rest) := by
  unfold encStr decStr
  rw [List.append_assoc, decNat_encNat 4 s.length _ h, Option.some_bind]
  have hlen : s.length = s.toList.length := rfl
  simp only [hlen, decChars_map_toNat s.toList rest, Option.map_some',
    string_mk_toList]

theorem decBool_encBool (b : Bool) (rest : List Nat) :
    decBool (encBool b ++ rest) = some (b, rest) := by
  cases b <;> rfl

set_option maxHeartbeats 2000000 in
theorem decHeader_marshalHeader (h : Header) (rest : List Nat)
    (hwf : Header.wf h) : decHeader (marshalHeader h ++ rest) = some (h, rest) := by
  cases h with
  | Request id sm t =>
    obtain ⟨hid, hsm, hsec, hnan⟩ := hwf
    simp only [marshalHeader, List.cons_append, List.append_assoc, decHeader,
      decNat_encNat 2 id _ hid, Option.some_bind, decStr_encStr sm _ hsm,
      decNat_encNat 8 t.secs _ hsec, decNat_encNat 4 t.nanos _ hnan,
      Option.map_some']
  | Response id is_ok =>
    simp only [marshalHeader, List.cons_append, List.append_assoc, decHeader,
      decNat_encNat 2 id _ hwf, Option.some_bind, decBool_encBool,
      Option.map_some']
  | Cancel id =>
    simp only [marshalHeader, List.cons_append, decHeader,
      decNat_encNat 2 id _ hwf, Option.map_some']
  | Publish id topic =>
    obtain ⟨hid, ht⟩ := hwf
    simp only [marshalHeader, List.cons_append, List.append_assoc, decHeader,
      decNat_encNat 2 id _ hid, Option.some_bind, decStr_encStr topic _ ht,
      Option.map_some']
  | Subscribe id topic =>
    obtain ⟨hid, ht⟩ := hwf
    simp only [marshalHeader, List.cons_append, List.append_assoc, decHeader,
      decNat_encNat 2 id _ hid, Option.some_bind, decStr_encStr topic _ ht,
      Option.map_some']
  | Unsubscribe id topic =>
    obtain ⟨hid, ht⟩ := hwf
    simp only [marshalHeader, List.cons_append, List.append_assoc, decHeader,
      decNat_encNat 2 id _ hid, Option.some_bind, decStr_encStr topic _ ht,
      Option.map_some']
  | Ack id =>
    simp only [marshalHeader, List.cons_append, decHeader,
      decNat_encNat 2 id _ hwf, Option.map_some']
  | Produce id topic tickets =>
    obtain ⟨hid, ht, htk⟩ := hwf
    simp only [marshalHeader, List.cons_append, List.append_assoc, decHeader,
      decNat_encNat 2 id _ hid, Option.some_bind, decStr_encStr topic _ ht,
      decNat_encNat 4 tickets _ htk, Option.map_some']
  | Consume id topic =>
    obtain ⟨hid, ht⟩ := hwf
    simp only [marshalHeader, List.cons_append, List.append_assoc, decHeader,
      decNat_encNat 2 id _ hid, Option.some_bind, decStr_encStr topic _ ht,
      Option.map_some']
  | Ext id content marker =>
    obtain ⟨hid, hc, hm⟩ := hwf
    simp only [marshalHeader, List.cons_append, List.append_assoc, decHeader,
      decNat_encNat 2 id _ hid, Option.some_bind, decStr_encStr content _ hc,
      decNat_encNat 4 marker _ hm, Option.map_some']

/-- C3: for every value of the protocol `Header` type within the numeric
ranges of its Rust field types (all ten variants: Request, Response, Cancel,
Publish, Subscribe, Unsubscribe, Ack, Produce, Consume, Ext), deserializing
the bytes produced by serializing it with the codec yields the original
value. -/
theorem c3_header_roundtrip (h : Header) (hwf : Header.wf h) :
    unmarshalHeader (marshalHeader h) = Except.ok h := by
  unfold unmarshalHeader
  have hd := decHeader_marshalHeader h [] hwf
  rw [List.append_nil] at hd
  rw [hd]

/-- Witness for C3 at a concrete input: a `Request` header round-trips. -/
theorem c3_header_roundtrip_witness :
    unmarshalHeader (marshalHeader (Header.Request 7 "Arith.add" ⟨10, 0⟩))
      = Except.ok (Header.Request 7 "Arith.add" ⟨10, 0⟩) :=
  c3_header_roundtrip (Header.Request 7 "Arith.add" ⟨10, 0⟩)
    ⟨by decide, by decide, by decide, by decide⟩

/-- C8: for every header and body written through the frame-based codec write
half, `write_header` emits exactly one frame with id `h.get_id`, seq 0 and
payload type Header; `write_body` emits exactly one frame with the supplied
id, seq 1 and payload type Data; so each logical message on the wire is a
header frame followed by one data frame with the same id. -/
theorem c8_frame_emission (h : Header) (id : MessageId) (bodyBuf : List Nat) :
    write_header h = [Frame.new h.get_id 0 PayloadType.header (marshalHeader h)]
    ∧ (write_header h).length = 1
    ∧ write_body id bodyBuf = [Frame.new id 1 PayloadType.data bodyBuf]
    ∧ (write_body id bodyBuf).length = 1
    ∧ writeMessageFrames h bodyBuf
        = [Frame.new h.get_id 0 PayloadType.header (marshalHeader h),
            Frame.new h.get_id 1 PayloadType.data bodyBuf]
    ∧ (writeMessageFrames h bodyBuf).map Frame.id = [h.get_id, h.get_id]
    ∧ (writeMessageFrames h bodyBuf).map Frame.seq = [0, 1]
    ∧ (writeMessageFrames h bodyBuf).map Frame.payload_type
        = [PayloadType.header, PayloadType.data] :=
  ⟨rfl, rfl, rfl, rfl, rfl, rfl, rfl, rfl⟩

theorem stripLastSegment_of_trailing_slash (p : String)
    (hs : p.toList.reverse.head? = some '/') : stripLastSegment p = p := by
  unfold stripLastSegment
  cases hrev : p.toList.reverse with
  | nil => rw [hrev] at hs; cases hs
  | cons c t =>
    rw [hrev] at hs
    have hc : c = '/' := by simpa using hs
    subst hc
    have hpred : (('/' : Char) != '/') = false := by decide
    simp only [List.dropWhile_cons, hpred, Bool.false_eq_true, if_false]
    have ht : ('/' :: t).reverse = p.toList := by
      rw [← hrev, List.reverse_reverse]
    rw [ht, string_mk_toList]

/-- C9 counterexample: the claim says the websocket URL is the parsed address
with `_rpc` appended to its path, but for the address path `/rpc` (no
trailing slash) `url::Url::join` resolves `_rpc` against the base, replacing
the last path segment: the result path is `/_rpc`, not an appended form. -/
theorem c9_counterexample_no_trailing_slash :
    (dial_http_url ⟨"http", "host", "/rpc"⟩).path = "/_rpc"
    ∧ ¬ (dial_http_url ⟨"http", "host", "/rpc"⟩).path = "/rpc" ++ DEFAULT_RPC_PATH
    ∧ ¬ (dial_http_url ⟨"http", "host", "/rpc"⟩).path
          = "/rpc/" ++ DEFAULT_RPC_PATH :=
  ⟨by decide, by decide, by decide⟩

/-- C9 (amended): `dial_http` connects to the URL whose scheme is `ws`, whose
host is that of the parsed address, and whose path is the parsed path with
everything after its last slash replaced by `DEFAULT_RPC_PATH` (the RFC 3986
resolution of the relative reference `_rpc`); when the address path ends with
a slash this equals the path with `DEFAULT_RPC_PATH` appended. -/
theorem c9_dial_http_join (base : UrlModel) :
    (dial_http_url base).scheme = "ws"
    ∧ (dial_http_url base).host = base.host
    ∧ (dial_http_url base).path = stripLastSegment base.path ++ DEFAULT_RPC_PATH
    ∧ (base.path.toList.reverse.head? = some '/' →
        (dial_http_url base).path = base.path ++ DEFAULT_RPC_PATH) := by
  refine ⟨rfl, rfl, rfl, ?_⟩
  intro hs
  show stripLastSegment base.path ++ DEFAULT_RPC_PATH
      = base.path ++ DEFAULT_RPC_PATH
  rw [stripLastSegment_of_trailing_slash base.path hs]

/-- Witness for C9 (amended) at a concrete input: for the documented form of
address (path ending in a slash) the token is appended. -/
theorem c9_dial_http_join_witness :
    (dial_http_url ⟨"http", "host", "/rpc/"⟩).path = "/rpc/" ++ DEFAULT_RPC_PATH :=
  (c9_dial_http_join ⟨"http", "host", "/rpc/"⟩).2.2.2 (by decide)
end ToyRPC
